import Mathlib

/-!
Verification of the `hypothermia` stage-based orchestration scripts.

The development shallowly embeds the Python sources `hypothermia.py`,
`bet.py`, `coreg.py` and `masconorm.py`. Stateful Python code becomes
explicit state passing; process exits and raised exceptions become
`Option`/`Except` results; the filesystem and the cluster scheduler
become explicit environment functions. The engine classes (`stage`,
`fnndsc`, the pipeline) are imported by the scripts but are not part of
this repository's sources; where a claim depends on them they are
modelled from the specification and marked as such.
-/

namespace Hypothermia

/-! ## Python value model

`f_stageShellExitCode` compares a stage's recorded exit code against the
string literal `"0"`. The exit code may be stored as a string or as an
integer; Python 2 equality between an `int` and a `str` is always
`False`, so the two representations are kept apart. -/

/-- A Python value as stored in a stage's `exitCode` slot: either a
string or an integer. -/
inductive PyVal where
  | pstr (s : String)
  | pint (n : Int)
  deriving DecidableEq, Repr

/-- Python 2 `==` on exit-code values: string/string and int/int compare
by value; an int never equals a string. -/
def pyEq : PyVal → PyVal → Bool
  | PyVal.pstr a, PyVal.pstr b => a == b
  | PyVal.pint a, PyVal.pint b => a == b
  | _, _ => false

/-! ## Stage state observed by the predicate library -/

/-- The slice of a stage object read by the predicate functions:
`callCount()` (number of times the action executed) and `exitCode()`
(result of the last action run). -/
structure StageState where
  callCount : Nat
  exitCode : PyVal
  deriving DecidableEq, Repr

/-- Embedding of `f_stageShellExitCode` (bet.py lines 188-206, repeated
verbatim in coreg.py and masconorm.py). The `obj` keyword argument may
be missing (`none`), in which case the function calls
`error.fatal(pipeline, "noStagePostConditions")`; otherwise:
`if not stage.callCount(): return True`;
`if stage.exitCode() == "0": return True`; `else: return False`. -/
def f_stageShellExitCode (obj : Option StageState) : Except String Bool :=
  match obj with
  | none => Except.error "noStagePostConditions"
  | some stage =>
    if stage.callCount == 0 then Except.ok true
    else if pyEq stage.exitCode (PyVal.pstr "0") then Except.ok true
    else Except.ok false

/-- Embedding of `f_fileCheck` (bet.py lines 170-186, repeated verbatim
in coreg.py and masconorm.py). The filesystem is the environment
function `fs`; the source initialises `b_allFilesExist = True` and for
each file name performs `b_allFilesExist &= misc.file_exists(f)`,
logging as a side effect. -/
def f_fileCheck (fs : String → Bool) (l_file : List String) : Bool :=
  l_file.foldl (fun b_allFilesExist str_fileName => b_allFilesExist && fs str_fileName) true

/-! ## Stage selection (`initialize`)

`FNNDSC_hypothermia.initialize` (hypothermia.py lines 141-146) and the
identical code in bet.py lines 90-95, coreg.py and masconorm.py:
`self._pipeline.stages_canRun(False)` disables every stage, then for
each character of the stages string, `stage_get(int(index)).canRun(True)`.
Python's `int(c)` on a non-digit character raises `ValueError`, and
`stage_get` with an out-of-range index fails; either failure is `none`. -/

/-- Python `int(c)` on a one-character string: the digit's value, or a
`ValueError` (`none`) on any other character. -/
def pyIntOfChar (c : Char) : Option Nat :=
  if c.isDigit then some (c.toNat - '0'.toNat) else none

/-- One step of the selection loop: enable stage `int(index)` in the
canRun vector, failing on a non-digit character or an out-of-range
stage index. -/
def canRunStep (flags : Option (List Bool)) (c : Char) : Option (List Bool) :=
  match flags, pyIntOfChar c with
  | some fl, some i => if i < fl.length then some (fl.set i true) else none
  | _, _ => none

/-- Embedding of `initialize`'s stage-selection pass over a pipeline of
`numStages` stages: first all stages are set `canRun(False)`, then each
character of `stageslist` enables the stage it indexes. `none` models
the uncaught exception path. -/
def initializeCanRun (numStages : Nat) (stageslist : String) : Option (List Bool) :=
  stageslist.toList.foldl canRunStep (some (List.replicate numStages false))

/-! ## Polling barrier

The loop itself lives in `stage.blockOnShellCmd`, in the engine package
the scripts import; it is not among this repository's sources. It is
modelled from the specification. The scheduler is the environment
function `obs`, giving the count observed by the query on each
successive poll. Since the loop may never terminate, it is embedded
with a fuel argument (number of polls the model is allowed to make):
termination of the real loop corresponds to success at some fuel. -/

/-- Modelled from the spec: `stage.blockOnShellCmd(blockCondition,
blockUntil, blockMsg, loopMsg, timepoll)`, absent from the repository's
sources. "Algorithm: evaluate `countQuery()`; if it equals `target`
(conventionally 0), return success immediately; otherwise sleep
`pollInterval`, log a human-readable message, and repeat indefinitely";
"There is no built-in timeout". `blockOnShellCmdFrom obs target k fuel`
is the loop starting at poll `k` with `fuel` polls remaining: it returns
the index of the first successful poll, or `none` if fuel runs out while
still waiting. -/
def blockOnShellCmdFrom (obs : Nat → Nat) (target : Nat) : Nat → Nat → Option Nat
  | _, 0 => none
  | k, fuel + 1 =>
    if obs k = target then some k else blockOnShellCmdFrom obs target (k + 1) fuel

/-- Modelled from the spec: the barrier entered at the first poll. -/
def blockOnShellCmd (obs : Nat → Nat) (target : Nat) (fuel : Nat) : Option Nat :=
  blockOnShellCmdFrom obs target 0 fuel

/-! ## `f_blockOnScheduledJobs` (hypothermia.py lines 232-259)

The wrapper reads its keyword arguments, builds the block condition
string (a `blockProcess` key rewrites it to
`mosq listall | grep <process> | wc -l`), then calls
`stage.blockOnShellCmd(...)` and returns `True`. -/

/-- The keyword arguments accepted by `f_blockOnScheduledJobs`; a `none`
field is an absent key, leaving the source's default in force. -/
structure BlockKwargs where
  obj : Option Nat := none
  blockCondition : Option String := none
  blockUntil : Option String := none
  blockProcess : Option String := none
  timepoll : Option Nat := none
  deriving DecidableEq, Repr

/-- The block-condition string after the kwargs loop: `blockProcess`
rewrites it to the grep form, otherwise an explicit `blockCondition`
stands, otherwise the default `mosq listall | wc -l`. -/
def blockConditionOf (kw : BlockKwargs) : String :=
  match kw.blockProcess with
  | some p => "mosq listall | grep " ++ p ++ " | wc -l"
  | none => kw.blockCondition.getD "mosq listall | wc -l"

/-- The target value after the kwargs loop: `blockUntil` defaults to the
string `"0"`; the spec has the query's output parsed as an integer. -/
def blockUntilOf (kw : BlockKwargs) : Nat :=
  ((kw.blockUntil.getD "0").toNat?).getD 0

/-- The poll interval after the kwargs loop: `timepoll` defaults to 10. -/
def timepollOf (kw : BlockKwargs) : Nat :=
  kw.timepoll.getD 10

/-- Embedding of `f_blockOnScheduledJobs`: run the barrier against the
scheduler observations `obs`; if the blocking call returns (the model's
fuel sufficed), the wrapper returns `True`. `none` is the still-blocked
case. -/
def f_blockOnScheduledJobs (obs : Nat → Nat) (kw : BlockKwargs) (fuel : Nat) : Option Bool :=
  (blockOnShellCmd obs (blockUntilOf kw) fuel).map (fun _ => true)

/-! ## Fan-out callbacks (hypothermia.py)

Each callback iterates the subject list; per subject it looks up input
volumes (`misc.find`), calls `error.fatal` if one is missing, builds a
command string, and runs it through one `crun` ProcessRunner invocation.
Stages 0, 1 and 2 then check `cluster.exitCode()` and call
`error.fatal(pipe_hypothermia, 'stageExec', ...)` on a non-zero code;
stage 3's callback performs no such check. The per-subject environment
supplies the `misc.find` results and the dispatch exit code. -/

/-- Per-subject environment for a fan-out callback: whether the b0, asl
and adc volumes are found in the subject directory, and the exit code
of the dispatched command for that subject. -/
structure SubjEnv where
  hasB0 : Bool := true
  hasASL : Bool := true
  hasADC : Bool := true
  exitCode : Nat := 0
  deriving DecidableEq, Repr

/-- An observable step of a stage's execution: one ProcessRunner
dispatch for a subject, a fatal process exit with an error key, or the
evaluation of the barrier postcondition. -/
inductive Event where
  | dispatch (subj : String)
  | fatal (err : String)
  | barrier (blockProcess : String)
  deriving DecidableEq, Repr

/-- Embedding of `f_stage0callback` (hypothermia.py lines 332-365): per
subject, missing b0 is fatal (`noB0`); otherwise one dispatch; a
non-zero exit code is fatal (`stageExec`). The first component is the
event trace, the second whether the callback ran to completion and
returned `True` (a fatal error exits the process instead). -/
def f_stage0callback (env : String → SubjEnv) : List String → List Event × Bool
  | [] => ([], true)
  | subj :: rest =>
    if (env subj).hasB0 = false then ([Event.fatal "noB0"], false)
    else if (env subj).exitCode ≠ 0 then
      ([Event.dispatch subj, Event.fatal "stageExec"], false)
    else
      let tail := f_stage0callback env rest
      (Event.dispatch subj :: tail.1, tail.2)

/-- Embedding of `f_stage1callback` (hypothermia.py lines 385-420): as
stage 0, but missing b0 raises `noB0` and missing asl raises `noASL`
before the dispatch; a non-zero exit code is fatal (`stageExec`). -/
def f_stage1callback (env : String → SubjEnv) : List String → List Event × Bool
  | [] => ([], true)
  | subj :: rest =>
    if (env subj).hasB0 = false then ([Event.fatal "noB0"], false)
    else if (env subj).hasASL = false then ([Event.fatal "noASL"], false)
    else if (env subj).exitCode ≠ 0 then
      ([Event.dispatch subj, Event.fatal "stageExec"], false)
    else
      let tail := f_stage1callback env rest
      (Event.dispatch subj :: tail.1, tail.2)

/-- Embedding of `f_stage2callback` (hypothermia.py lines 441-474):
identical control flow to stage 1's callback. -/
def f_stage2callback (env : String → SubjEnv) : List String → List Event × Bool
  | [] => ([], true)
  | subj :: rest =>
    if (env subj).hasB0 = false then ([Event.fatal "noB0"], false)
    else if (env subj).hasASL = false then ([Event.fatal "noASL"], false)
    else if (env subj).exitCode ≠ 0 then
      ([Event.dispatch subj, Event.fatal "stageExec"], false)
    else
      let tail := f_stage2callback env rest
      (Event.dispatch subj :: tail.1, tail.2)

/-- Embedding of `f_stage3callback` (hypothermia.py lines 495-521): per
subject, missing adc is fatal (`noADC`); then one dispatch. Unlike the
other three callbacks, the source performs no `cluster.exitCode()`
check after the dispatch, so the exit code never causes a fatal exit. -/
def f_stage3callback (env : String → SubjEnv) : List String → List Event × Bool
  | [] => ([], true)
  | subj :: rest =>
    if (env subj).hasADC = false then ([Event.fatal "noADC"], false)
    else
      let tail := f_stage3callback env rest
      (Event.dispatch subj :: tail.1, tail.2)

/-- Modelled from the spec: the stage execution protocol's ordering
(the engine's run loop is not among this repository's sources) —
"Execute `action` ... Evaluate all postconditions in order", so the
barrier postcondition (with the stage's `blockProcess` tag) is only
evaluated after the action's callback has returned; a fatal exit inside
the callback never reaches it. -/
def stageRunTrace (callback : List String → List Event × Bool)
    (blockProcess : String) (subjects : List String) : List Event :=
  let r := callback subjects
  if r.2 then r.1 ++ [Event.barrier blockProcess] else r.1

/-- The dispatch events of a trace, in order. -/
def dispatches (t : List Event) : List String :=
  t.filterMap (fun e => match e with | Event.dispatch s => some s | _ => none)

/-! ## Pipeline wiring (hypothermia.py main block)

The script constructs four `stage.Stage` objects, binds each stage's
postconditions to `f_blockOnScheduledJobs` with an `obj` and a
`blockProcess` keyword, and binds stage k+1's preconditions by reading
back stage k's stored postcondition pair:
`stageK1.def_preconditions(stageK.def_postconditions()[0], **stageK.def_postconditions()[1])`.
The binding is a (function, kwargs) pair; the only predicate function
used in this wiring is `f_blockOnScheduledJobs`. -/

/-- A predicate function name, as stored in a condition binding. -/
inductive PredFn where
  | blockOnScheduledJobs
  deriving DecidableEq, Repr

/-- A condition binding: the predicate function together with the
keyword arguments it was bound with. The `obj` keyword holds the stage
that was passed (by its index in the script). -/
structure PredBinding where
  fn : PredFn
  obj : Nat
  blockProcess : String
  deriving DecidableEq, Repr

/-- A stage as wired by the script: constructor arguments plus the
stored precondition and postcondition bindings (`none` until the
corresponding `def_preconditions`/`def_postconditions` call). -/
structure StageWiring where
  name : String
  fatalConditions : Bool
  logTo : String
  pre : Option PredBinding := none
  post : Option PredBinding := none
  deriving DecidableEq, Repr

/-- hypothermia.py lines 325-331 and 366-367: `stage0`, named `bet`,
postconditions bound to `f_blockOnScheduledJobs` with `obj=stage0`,
`blockProcess='bet'`. -/
def stage0 : StageWiring :=
  { name := "bet", fatalConditions := true, logTo := "hypothermia-bet.log",
    post := some { fn := PredFn.blockOnScheduledJobs, obj := 0, blockProcess := "bet" } }

/-- hypothermia.py lines 377-384 and 422-423: `stage1`, named `coreg`;
its preconditions are stage0's stored postcondition pair read back via
`stage0.def_postconditions()`; its postconditions use
`blockProcess='coreg.py'`. -/
def stage1 : StageWiring :=
  { name := "coreg", fatalConditions := true, logTo := "hypothermia-coreg.log",
    pre := stage0.post,
    post := some { fn := PredFn.blockOnScheduledJobs, obj := 1, blockProcess := "coreg.py" } }

/-- hypothermia.py lines 432-440 and 476-477: `stage2`, named
`masconorm`; preconditions are stage1's stored postcondition pair;
postconditions use `blockProcess='masconorm.py'`. -/
def stage2 : StageWiring :=
  { name := "masconorm", fatalConditions := true, logTo := "hypothermia-masconorm-asl.log",
    pre := stage1.post,
    post := some { fn := PredFn.blockOnScheduledJobs, obj := 2, blockProcess := "masconorm.py" } }

/-- hypothermia.py lines 486-494 and 523-524: `stage3`, also named
`masconorm`; preconditions are stage2's stored postcondition pair;
postconditions use `blockProcess='masconorm.py'`. -/
def stage3 : StageWiring :=
  { name := "masconorm", fatalConditions := true, logTo := "hypothermia-masconorm-adc.log",
    pre := stage2.post,
    post := some { fn := PredFn.blockOnScheduledJobs, obj := 3, blockProcess := "masconorm.py" } }

/-- hypothermia.py lines 528-531: the four `stage_add` calls, in order. -/
def hypothermiaStages : List StageWiring := [stage0, stage1, stage2, stage3]

/-- The names of the stages added to the hypothermia pipeline, in
insertion order. -/
def hypothermiaStageNames : List String := hypothermiaStages.map StageWiring.name

/-! ## Concrete environments used to instantiate the theorems -/

/-- A scheduler observation sequence that counts down 3, 2, 1, 0, ... :
the count first reaches zero on the fourth poll. -/
def obsDemo : Nat → Nat := fun k => 3 - k

/-- A subject environment in which every input volume is present and
every dispatched command exits with code 0. -/
def envAllOk : String → SubjEnv := fun _ => {}

/-- A subject environment in which subject `"A"`'s dispatched command
exits with code 1 and everything else succeeds. -/
def envFailA : String → SubjEnv :=
  fun s => if s = "A" then { exitCode := 1 } else {}

end Hypothermia

namespace Hypothermia

/-! ## Helper lemmas -/

/-- Folding the conjunction accumulator of `f_fileCheck` from an
arbitrary start value. -/
theorem fileCheck_foldl (fs : String → Bool) :
    ∀ (l : List String) (b : Bool),
      l.foldl (fun acc f => acc && fs f) b = (b && l.all fs) := by
  intro l
  induction l with
  | nil => intro b; simp
  | cons f rest ih =>
    intro b
    simp only [List.foldl_cons, List.all_cons, ih, Bool.and_assoc]

/-- Soundness of the barrier loop: a successful return happened at a
poll at or after the start index whose observation equals the target,
and every poll from the start up to it observed a non-target count. -/
theorem blockOnShellCmdFrom_some_sound (obs : Nat → Nat) (t : Nat) :
    ∀ (fuel k0 k : Nat), blockOnShellCmdFrom obs t k0 fuel = some k →
      obs k = t ∧ k0 ≤ k ∧ ∀ j, k0 ≤ j → j < k → obs j ≠ t := by
  intro fuel
  induction fuel with
  | zero => intro k0 k h; simp [blockOnShellCmdFrom] at h
  | succ n ih =>
    intro k0 k h
    by_cases hk : obs k0 = t
    · simp [blockOnShellCmdFrom, hk] at h
      subst h
      exact ⟨hk, Nat.le_refl _, fun j hj1 hj2 => absurd (Nat.lt_of_le_of_lt hj1 hj2) (Nat.lt_irrefl _)⟩
    · simp only [blockOnShellCmdFrom, if_neg hk] at h
      obtain ⟨h1, h2, h3⟩ := ih (k0 + 1) k h
      refine ⟨h1, by omega, ?_⟩
      intro j hj1 hj2
      rcases Nat.eq_or_lt_of_le hj1 with heq | hlt
      · exact heq ▸ hk
      · exact h3 j (by omega) hj2

/-- Completeness of the barrier loop at the first target observation:
if poll `k0 + n` observes the target and no poll from `k0` before it
does, then `n + 1` polls of fuel return exactly that poll. -/
theorem blockOnShellCmdFrom_first_hit (obs : Nat → Nat) (t : Nat) :
    ∀ (n k0 : Nat), obs (k0 + n) = t →
      (∀ j, k0 ≤ j → j < k0 + n → obs j ≠ t) →
      blockOnShellCmdFrom obs t k0 (n + 1) = some (k0 + n) := by
  intro n
  induction n with
  | zero =>
    intro k0 h _
    simp only [Nat.add_zero] at h ⊢
    simp [blockOnShellCmdFrom, h]
  | succ n ih =>
    intro k0 h hmin
    have hk0 : obs k0 ≠ t := hmin k0 (Nat.le_refl _) (by omega)
    have hstep : blockOnShellCmdFrom obs t k0 (n + 1 + 1) =
        blockOnShellCmdFrom obs t (k0 + 1) (n + 1) := by
      simp [blockOnShellCmdFrom, hk0]
    rw [hstep]
    have h' : obs (k0 + 1 + n) = t := by
      rw [show k0 + 1 + n = k0 + (n + 1) by omega]; exact h
    have hmin' : ∀ j, k0 + 1 ≤ j → j < k0 + 1 + n → obs j ≠ t := by
      intro j h1 h2; exact hmin j (by omega) (by omega)
    rw [ih (k0 + 1) h' hmin']
    congr 1
    omega

/-- The callback of stage 0 on an all-successful environment: one
dispatch per subject, in list order, returning `True`. -/
theorem f_stage0callback_all_ok (env : String → SubjEnv) :
    ∀ (subjects : List String),
      (∀ s ∈ subjects, (env s).hasB0 = true ∧ (env s).exitCode = 0) →
      f_stage0callback env subjects = (subjects.map Event.dispatch, true) := by
  intro subjects
  induction subjects with
  | nil => intro _; rfl
  | cons subj rest ih =>
    intro h
    have hs := h subj (List.mem_cons_self subj rest)
    have hrest := fun s hs' => h s (List.mem_cons_of_mem subj hs')
    simp [f_stage0callback, hs.1, hs.2, ih hrest]

/-- The dispatch subjects of a trace made of dispatches followed by a
barrier event. -/
theorem dispatches_map_append_barrier (subjects : List String) (p : String) :
    dispatches (subjects.map Event.dispatch ++ [Event.barrier p]) = subjects := by
  induction subjects with
  | nil => rfl
  | cons s rest ih => simp [dispatches] at ih ⊢; exact ih

/-! ## Claim theorems -/

/-- C1: The polling barrier returns success iff the count query
eventually yields the target value 0 on some poll; any successful
return happened on a poll that observed 0 and every earlier poll
observed a strictly positive count (so it never returns success on a
positive observation); on the first poll observing 0 it returns success
immediately; and when no poll ever observes 0 it never terminates the
wait on its own (the left-to-right direction of the first conjunct, in
the contrapositive: no fuel bound ever yields success, i.e. no
timeout). -/
theorem blockOnShellCmd_success_iff_eventually_zero (obs : Nat → Nat) :
    ((∃ fuel k, blockOnShellCmd obs 0 fuel = some k) ↔ ∃ k, obs k = 0)
    ∧ (∀ fuel k, blockOnShellCmd obs 0 fuel = some k →
        obs k = 0 ∧ ∀ j, j < k → 0 < obs j)
    ∧ (∀ k, obs k = 0 → (∀ j, j < k → obs j ≠ 0) →
        blockOnShellCmd obs 0 (k + 1) = some k) := by
  have hfirst : ∀ k, obs k = 0 → (∀ j, j < k → obs j ≠ 0) →
      blockOnShellCmd obs 0 (k + 1) = some k := by
    intro k hk hmin
    have := blockOnShellCmdFrom_first_hit obs 0 k 0
      (by simpa using hk) (by intro j _ hj; exact hmin j (by omega))
    simpa [blockOnShellCmd] using this
  refine ⟨⟨?_, ?_⟩, ?_, hfirst⟩
  · rintro ⟨fuel, k, h⟩
    obtain ⟨h1, _, _⟩ := blockOnShellCmdFrom_some_sound obs 0 fuel 0 k h
    exact ⟨k, h1⟩
  · rintro ⟨k, hk⟩
    have hex : ∃ m, obs m = 0 := ⟨k, hk⟩
    have hspec := Nat.find_spec hex
    have hmin : ∀ j, j < Nat.find hex → obs j ≠ 0 := fun j hj => Nat.find_min hex hj
    exact ⟨Nat.find hex + 1, Nat.find hex, hfirst (Nat.find hex) hspec hmin⟩
  · intro fuel k h
    obtain ⟨h1, _, h3⟩ := blockOnShellCmdFrom_some_sound obs 0 fuel 0 k h
    exact ⟨h1, fun j hj => Nat.pos_of_ne_zero (h3 j (Nat.zero_le _) hj)⟩

/-- C1 witness: with the countdown observation sequence 3, 2, 1, 0, ...
the barrier returns success on the fourth poll (index 3), the first one
observing 0. -/
theorem blockOnShellCmd_success_witness :
    obsDemo 3 = 0 ∧ blockOnShellCmd obsDemo 0 4 = some 3 :=
  ⟨rfl, (blockOnShellCmd_success_iff_eventually_zero obsDemo).2.2 3 rfl (by decide)⟩

/-- C2: When every subject of stage 0's target list has its b0 input
present and its dispatch succeeding, the stage's run trace is exactly
one ProcessRunner dispatch per subject, in list-iteration order,
followed by the barrier postcondition evaluation — so exactly N
dispatch calls occur and all of them precede the barrier. -/
theorem stage0_fanout_dispatch_order (env : String → SubjEnv) (subjects : List String)
    (h : ∀ s ∈ subjects, (env s).hasB0 = true ∧ (env s).exitCode = 0) :
    stageRunTrace (f_stage0callback env) "bet" subjects
        = subjects.map Event.dispatch ++ [Event.barrier "bet"]
    ∧ dispatches (stageRunTrace (f_stage0callback env) "bet" subjects) = subjects := by
  have hcb := f_stage0callback_all_ok env subjects h
  have htrace : stageRunTrace (f_stage0callback env) "bet" subjects
      = subjects.map Event.dispatch ++ [Event.barrier "bet"] := by
    simp [stageRunTrace, hcb]
  exact ⟨htrace, by rw [htrace]; exact dispatches_map_append_barrier subjects "bet"⟩

/-- C2 witness: three subjects with all inputs present and successful
dispatches yield three dispatch events in order, then the barrier. -/
theorem stage0_fanout_dispatch_order_witness :
    stageRunTrace (f_stage0callback envAllOk) "bet" ["s1", "s2", "s3"]
        = [Event.dispatch "s1", Event.dispatch "s2", Event.dispatch "s3",
           Event.barrier "bet"]
    ∧ dispatches (stageRunTrace (f_stage0callback envAllOk) "bet" ["s1", "s2", "s3"])
        = ["s1", "s2", "s3"] := by
  have h := stage0_fanout_dispatch_order envAllOk ["s1", "s2", "s3"]
    (by intro s _; exact ⟨rfl, rfl⟩)
  simpa using h

/-- C3: On an environment where subject `"A"`'s dispatch exits with
code 1, stage 3's callback still dispatches the later subject `"B"` and
returns normally with no fatal event — whereas stage 0's callback on
the same environment aborts fatally with `stageExec` right after
dispatching `"A"` and never dispatches `"B"`. Stage 3 has
`fatalConditions = True` yet ignores the dispatch exit code. -/
theorem stage3_ignores_dispatch_exitCode :
    f_stage3callback envFailA ["A", "B"]
        = ([Event.dispatch "A", Event.dispatch "B"], true)
    ∧ f_stage0callback envFailA ["A", "B"]
        = ([Event.dispatch "A", Event.fatal "stageExec"], false)
    ∧ stage3.fatalConditions = true := by
  refine ⟨?_, ?_, rfl⟩ <;> rfl

/-- C4: Stage selection over a four-stage pipeline: the digit string
`"012"` enables exactly stages 0, 1 and 2, but the special string
`"all"` — documented in the script's synopsis as enabling every
stage — makes `int('a')` raise `ValueError` (the `none` outcome), so no
stage is enabled and initialization dies. -/
theorem initialize_all_selection_crashes :
    initializeCanRun 4 "012" = some [true, true, true, false]
    ∧ initializeCanRun 4 "all" = none := by
  refine ⟨?_, ?_⟩ <;> rfl

/-- C5 counterexample: a stage whose action never executed
(`callCount = 0`, here with a non-success recorded exit code) has its
exit-code postcondition evaluate to `True`, not `False` as claimed. -/
theorem stageShellExitCode_skipped_counterexample :
    f_stageShellExitCode (some { callCount := 0, exitCode := PyVal.pstr "1" })
      = Except.ok true := rfl

/-- C5 amended: for every recorded exit code, a stage with
`callCount = 0` has `f_stageShellExitCode` return `True` — a skipped
stage reports "satisfied" to downstream preconditions, never blocking
them. -/
theorem stageShellExitCode_skipped_reports_true (e : PyVal) :
    f_stageShellExitCode (some { callCount := 0, exitCode := e })
      = Except.ok true := rfl

/-- C6 counterexample: a stage that ran once and recorded the integer
exit code 0 has its postcondition evaluate to `False`: the source
compares against the string `"0"` and Python 2 never equates an int
with a str. -/
theorem stageShellExitCode_int_zero_counterexample :
    f_stageShellExitCode (some { callCount := 1, exitCode := PyVal.pint 0 })
      = Except.ok false := rfl

/-- C6 amended: for a stage whose action executed at least once, the
postcondition returns `True` iff the recorded exit code is exactly the
string `"0"`; the integer 0 (or any other value) yields `False`. -/
theorem stageShellExitCode_true_iff_string_zero (c : Nat) (e : PyVal) :
    f_stageShellExitCode (some { callCount := c + 1, exitCode := e })
        = Except.ok true ↔ e = PyVal.pstr "0" := by
  cases e with
  | pstr s =>
    by_cases h : s = "0"
    · subst h; simp [f_stageShellExitCode, pyEq]
    · simp [f_stageShellExitCode, pyEq, h]
  | pint n => simp [f_stageShellExitCode, pyEq]

/-- C7 counterexample: the four stages added to the hypothermia
pipeline are named `bet`, `coreg`, `masconorm`, `masconorm`: the stages
added third and fourth carry the same name, so the names are not
pairwise distinct. -/
theorem hypothermia_stage_names_not_distinct :
    hypothermiaStageNames = ["bet", "coreg", "masconorm", "masconorm"]
    ∧ stage2.name = stage3.name := ⟨rfl, rfl⟩

/-- C7 amended: every pair of stages of the hypothermia pipeline
carries distinct names except stages 2 and 3, which both carry
`masconorm`. -/
theorem hypothermia_stage_names_characterization :
    stage0.name ≠ stage1.name ∧ stage0.name ≠ stage2.name
    ∧ stage0.name ≠ stage3.name ∧ stage1.name ≠ stage2.name
    ∧ stage1.name ≠ stage3.name ∧ stage2.name = stage3.name := by
  refine ⟨?_, ?_, ?_, ?_, ?_, rfl⟩ <;> decide

/-- C8: `f_fileCheck` returns `True` iff every path in the list exists
in the filesystem (the per-path booleans are ANDed across the list),
and it returns `True` on the empty list. -/
theorem fileCheck_true_iff_all_exist (fs : String → Bool) (l : List String) :
    (f_fileCheck fs l = true ↔ ∀ f ∈ l, fs f = true)
    ∧ f_fileCheck fs [] = true := by
  constructor
  · rw [f_fileCheck, fileCheck_foldl fs l true]
    simp [List.all_eq_true]
  · rfl

/-- C8 witness: on a filesystem where only `"a"` and `"b"` exist, the
check succeeds on `["a", "b"]`. -/
theorem fileCheck_true_iff_all_exist_witness :
    f_fileCheck (fun f => f = "a" || f = "b") ["a", "b"] = true :=
  (fileCheck_true_iff_all_exist (fun f => f = "a" || f = "b") ["a", "b"]).1.mpr
    (by decide)

/-- C9: each later stage's precondition binding is the identical
(function, kwargs) pair as its predecessor's postcondition binding —
explicitly, stage k+1's preconditions carry stage k's
`f_blockOnScheduledJobs` binding with stage k's `obj` and
`blockProcess` — so under any evaluator the precondition check of stage
k+1 evaluates exactly as stage k's postcondition check. -/
theorem stage_chaining_pre_eq_post :
    (stage1.pre = stage0.post ∧ stage2.pre = stage1.post ∧ stage3.pre = stage2.post)
    ∧ (stage1.pre = some (PredBinding.mk PredFn.blockOnScheduledJobs 0 "bet")
       ∧ stage2.pre = some (PredBinding.mk PredFn.blockOnScheduledJobs 1 "coreg.py")
       ∧ stage3.pre = some (PredBinding.mk PredFn.blockOnScheduledJobs 2 "masconorm.py"))
    ∧ ∀ (E : Option PredBinding → Bool),
        E stage1.pre = E stage0.post ∧ E stage2.pre = E stage1.post
        ∧ E stage3.pre = E stage2.post :=
  ⟨⟨rfl, rfl, rfl⟩, ⟨rfl, rfl, rfl⟩, fun _ => ⟨rfl, rfl, rfl⟩⟩

/-- C10: the barrier postcondition wrapper either is still blocked
(`none`, insufficient fuel) or returns `True`: once the blocking call
returns, `f_blockOnScheduledJobs` returns `True` unconditionally, so a
barrier-based postcondition can never evaluate to `False`. -/
theorem blockOnScheduledJobs_never_false (obs : Nat → Nat) (kw : BlockKwargs)
    (fuel : Nat) :
    f_blockOnScheduledJobs obs kw fuel = none
    ∨ f_blockOnScheduledJobs obs kw fuel = some true := by
  cases hb : blockOnShellCmd obs (blockUntilOf kw) fuel with
  | none => left; simp [f_blockOnScheduledJobs, hb]
  | some k => right; simp [f_blockOnScheduledJobs, hb]

end Hypothermia
